import Mathlib

/-!
Verification development for the `mdlink` URL Classification & Rendering Engine.

The Rust sources are embedded shallowly:
* `tryWriteMarkdownUrl` embeds `try_write_markdown_url` from `src/main.rs` (the
  output sink `impl fmt::Write` becomes an explicit accumulated `String`; a
  `write!` is an append; `fmt::Error` cannot arise for string sinks and is
  dropped).
* `ghTryWriteMarkdownUrl` embeds `try_write_markdown_url` from `src/github.rs`
  (the configuration-aware GitHub recognizer).
* `AppConfig.layersFromProfile`, `Layered` embed `src/config.rs`.
* The regex micro-grammars (`LINE_NUM_SPEC_RE`, `COMPONENT_VERSION_RE`,
  `SYMBOL_RE`, the fragment pattern) are embedded as explicit leftmost-first
  scanners over `List Char`; the Rust `\w` class is modelled as ASCII word
  characters, which is exact for all inputs treated in this development.
* `Url` models the parsed `url::Url` value: the engine reads its scheme, host,
  path segments, decoded query pairs and fragment, and interpolates the URL's
  `Display` serialization (field `raw`) into every rendered link.
* Rust `BTreeMap`s (keys unique) are modelled as association lists consulted
  with `List.lookup`.
-/

/-- Parsed URL as consumed by the engine (`url::Url`).  `raw` is the `Display`
serialization interpolated by every `write!(f, "...({url})")`.  `pathSegments`
models `Url::path_segments()`, which is always available when a host is
present (the code asserts this); `queryPairs` models the decoded
`Url::query_pairs()` sequence. -/
structure Url where
  scheme : String
  host : Option String
  pathSegments : List String
  queryPairs : List (String × String)
  fragment : Option String
  raw : String
deriving DecidableEq

/-- Embeds `enum FancyMarkdownMatched` (Yes | No) from `src/main.rs`. -/
inductive FancyMarkdownMatched where
  | yes
  | no
deriving DecidableEq

/-- Strict counterpart of Rust `Option::or` / `Option::or_else` (the laziness
of `or_else` is irrelevant for pure values). -/
def orO {α : Type} : Option α → Option α → Option α
  | some v, _ => some v
  | Option.none, b => b

/-- Strip an expected literal prefix from a character list. -/
def stripPrefixL : List Char → List Char → Option (List Char)
  | [], cs => some cs
  | _ :: _, [] => Option.none
  | p :: ps, c :: cs => if c = p then stripPrefixL ps cs else Option.none

/-- ASCII model of the regex `\w` character class. -/
def isWordChar (c : Char) : Bool := c.isAlphanum || c = '_'

/-- Embeds `enum LineNumberSpec` from the `blob` recognizer. -/
inductive LineNumberSpec where
  | single (num : String)
  | range (startNum endNum : String)
deriving DecidableEq

/-- The optional `(:?-L(?P<end>\d+))?` tail of `LINE_NUM_SPEC_RE` (note the
source pattern's `:?`, an optional literal colon, not a non-capturing group).
Returns the `end` capture when the group matches here. -/
def lineSpecEnd (cs : List Char) : Option (List Char) :=
  match cs with
  | '-' :: 'L' :: rest =>
    let ds := rest.takeWhile Char.isDigit
    if ds.isEmpty then Option.none else some ds
  | _ => Option.none

/-- One anchored attempt of `LINE_NUM_SPEC_RE` = `L(?P<start>\d+)(:?-L(?P<end>\d+))?`
at the head of `cs`. -/
def lineSpecAt (cs : List Char) : Option LineNumberSpec :=
  match cs with
  | 'L' :: rest =>
    let ds := rest.takeWhile Char.isDigit
    if ds.isEmpty then Option.none
    else
      let after := rest.dropWhile Char.isDigit
      let endPart :=
        match after with
        | ':' :: t => lineSpecEnd t
        | _ => lineSpecEnd after
      match endPart with
      | some e => some (LineNumberSpec.range (String.mk ds) (String.mk e))
      | Option.none => some (LineNumberSpec.single (String.mk ds))
  | _ => Option.none

/-- Unanchored leftmost search with `LINE_NUM_SPEC_RE` (`Regex::captures`). -/
def scanLineSpec : List Char → Option LineNumberSpec
  | [] => Option.none
  | c :: cs =>
    match lineSpecAt (c :: cs) with
    | some r => some r
    | Option.none => scanLineSpec cs

/-- The lazily-formatted `:line` / `:start-end` suffix of the `blob` arm. -/
def lineSuffix (frag : Option String) : String :=
  match frag.bind (fun s => scanLineSpec s.data) with
  | some (LineNumberSpec.single n) => ":" ++ n
  | some (LineNumberSpec.range a b) => ":" ++ a ++ "-" ++ b
  | Option.none => ""

/-- One `(:?\.\d+)` group of `COMPONENT_VERSION_RE` (again with the source's
literal optional colon).  Returns (consumed characters, remainder). -/
def verGroup (cs : List Char) : Option (List Char × List Char) :=
  match cs with
  | ':' :: '.' :: rest =>
    let ds := rest.takeWhile Char.isDigit
    if ds.isEmpty then Option.none
    else some (':' :: '.' :: ds, rest.dropWhile Char.isDigit)
  | '.' :: rest =>
    let ds := rest.takeWhile Char.isDigit
    if ds.isEmpty then Option.none
    else some ('.' :: ds, rest.dropWhile Char.isDigit)
  | _ => Option.none

/-- The `(?P<version>v\d+(:?\.\d+){0,2})` capture of `COMPONENT_VERSION_RE`,
matched greedily at the head of `cs`. -/
def parseVersionTail (cs : List Char) : Option (List Char) :=
  match cs with
  | 'v' :: rest =>
    let ds := rest.takeWhile Char.isDigit
    if ds.isEmpty then Option.none
    else
      let r1 := rest.dropWhile Char.isDigit
      match verGroup r1 with
      | Option.none => some ('v' :: ds)
      | some (g1, r2) =>
        match verGroup r2 with
        | Option.none => some ('v' :: ds ++ g1)
        | some (g2, _) => some ('v' :: ds ++ g1 ++ g2)
  | _ => Option.none

/-- Search with COMPONENT_VERSION_RE, i.e. a `component` capture (`.+`), a
literal dash and the version capture:
the greedy `.+` makes `component` extend to the last `-` whose suffix starts a
version (components containing a newline, which `.` cannot match, are not
modelled; release tags never contain one). -/
def componentVersionSplit (tag : String) : Option (String × String) :=
  let cs := tag.data
  let js := (List.range cs.length).filter fun j =>
    decide (1 ≤ j) && ((cs.drop j).head? == some '-')
      && (parseVersionTail (cs.drop (j + 1))).isSome
  match js.getLast? with
  | Option.none => Option.none
  | some j =>
    match parseVersionTail (cs.drop (j + 1)) with
    | some v => some (String.mk (cs.take j), String.mk v)
    | Option.none => Option.none

/-- The alternatives of `SYMBOL_RE`'s `symbol_kind` capture, in source order. -/
def symbolKinds : List String :=
  ["constant", "struct", "fn", "enum", "trait", "attr", "primitive", "type"]

/-- One anchored attempt of `SYMBOL_RE` =
`(?P<symbol_kind>constant|struct|fn|enum|trait|attr|primitive|type)\.(?P<ident>\w+)\.html`
at the head of `cs` (alternatives first-match, `\w+` greedy; since `.` is not a
word character the greedy run is the only candidate ident). -/
def matchSymbolAt (cs : List Char) : Option (String × String) :=
  symbolKinds.findSome? fun kind =>
    match stripPrefixL (kind.data ++ ['.']) cs with
    | Option.none => Option.none
    | some rest =>
      let run := rest.takeWhile isWordChar
      if run.isEmpty then Option.none
      else if (".html").data.isPrefixOf (rest.dropWhile isWordChar) then
        some (kind, String.mk run)
      else Option.none

/-- Unanchored leftmost search with `SYMBOL_RE`. -/
def scanSymbol : List Char → Option (String × String)
  | [] => Option.none
  | c :: cs =>
    match matchSymbolAt (c :: cs) with
    | some r => some r
    | Option.none => scanSymbol cs

/-- Alternatives of the fragment pattern, in source order. -/
def fragmentKinds : List String :=
  ["tymethod", "method", "associatedconstant", "structfield"]

/-- One anchored attempt of
`(tymethod|method|associatedconstant|structfield)\.(?P<ident>\w+)`. -/
def matchFragmentAt (cs : List Char) : Option String :=
  fragmentKinds.findSome? fun kind =>
    match stripPrefixL (kind.data ++ ['.']) cs with
    | Option.none => Option.none
    | some rest =>
      let run := rest.takeWhile isWordChar
      if run.isEmpty then Option.none else some (String.mk run)

/-- Unanchored leftmost search with the fragment pattern. -/
def scanFragment : List Char → Option String
  | [] => Option.none
  | c :: cs =>
    match matchFragmentAt (c :: cs) with
    | some r => some r
    | Option.none => scanFragment cs

/-- Embeds `extract_rust_symbol_path` from `src/main.rs`: pops the final path segment
(`index.html` and an empty segment yield no symbol; a segment that fails
`SYMBOL_RE` aborts the whole extraction), extracts a trailing fragment
identifier, drops the crate name for a `primitive` symbol, and joins the
pieces with `::`. -/
def extractRustSymbolPath (crateModuleName : String) (pathSegments : List String)
    (fragment : Option String) : Option String :=
  let symbolStep : Option (Option (String × String)) :=
    match pathSegments.getLast? with
    | Option.none => some Option.none
    | some last =>
      if last = "index.html" ∨ last = "" then some Option.none
      else
        match scanSymbol last.data with
        | Option.none => Option.none
        | some caps => some (some caps)
  match symbolStep with
  | Option.none => Option.none
  | some symbol =>
    let rest := pathSegments.dropLast
    let fragIdent := fragment.bind fun frag => scanFragment frag.data
    let symbolName := symbol.map fun s => s.2
    let crateOpt : Option String :=
      match symbol with
      | some (kind, _) =>
        if kind = "primitive" then Option.none else some crateModuleName
      | Option.none => some crateModuleName
    some (String.intercalate "::"
      (crateOpt.toList ++ rest ++ symbolName.toList ++ fragIdent.toList))

/-- The `github.com` arm of `src/main.rs` below the `issues`/`pull` check:
`blob/<commitish>/<path...>`, `commit/<hash>[/<path...>]` and
`releases/tag/<tag>[/]`. -/
def githubDeep (url : Url) (org repo : String) (rest : List String) (f : String) :
    String × FancyMarkdownMatched :=
  match rest with
  | s3 :: s4 :: rest2 =>
    if s3 = "blob" then
      (f ++ ("[" ++ ("`" ++ org ++ "/" ++ repo ++ "`" ++ ":" ++ "`" ++ s4 ++ "`"
          ++ ":" ++ "`" ++ String.intercalate "/" rest2 ++ "`"
          ++ lineSuffix url.fragment) ++ "](" ++ url.raw ++ ")"),
        FancyMarkdownMatched.yes)
    else if s3 = "commit" then
      if rest2 = [] then
        (f ++ ("[" ++ ("`" ++ org ++ "/" ++ repo ++ "`" ++ ":" ++ "`" ++ s4 ++ "`")
            ++ "](" ++ url.raw ++ ")"), FancyMarkdownMatched.yes)
      else
        (f ++ ("[" ++ ("`" ++ org ++ "/" ++ repo ++ "`" ++ ":" ++ "`" ++ s4 ++ "`"
            ++ ":" ++ "`" ++ String.intercalate "/" rest2 ++ "`")
            ++ "](" ++ url.raw ++ ")"), FancyMarkdownMatched.yes)
    else if s3 = "releases" ∧ s4 = "tag" then
      match rest2 with
      | tag :: rest3 =>
        if rest3 = [""] ∨ rest3 = [] then
          match componentVersionSplit tag with
          | some (component, version) =>
            (f ++ ("[" ++ ("`" ++ component ++ "` " ++ version)
                ++ "](" ++ url.raw ++ ")"), FancyMarkdownMatched.yes)
          | Option.none =>
            (f ++ ("[" ++ ("`" ++ tag ++ "` tag release")
                ++ "](" ++ url.raw ++ ")"), FancyMarkdownMatched.yes)
        else (f, FancyMarkdownMatched.no)
      | [] => (f, FancyMarkdownMatched.no)
    else (f, FancyMarkdownMatched.no)
  | _ => (f, FancyMarkdownMatched.no)

/-- The `github.com` arm of `src/main.rs`: two segments render the repo
reference; a peek at the next two segments catches `issues`/`pull` (nothing
after them is checked); otherwise the deeper shapes are tried. -/
def githubArm (url : Url) (segs : List String) (f : String) :
    String × FancyMarkdownMatched :=
  match segs with
  | org :: repo :: rest =>
    match rest with
    | [] =>
      (f ++ ("[" ++ ("`" ++ org ++ "/" ++ repo ++ "`") ++ "](" ++ url.raw ++ ")"),
        FancyMarkdownMatched.yes)
    | kw :: rest2 =>
      match rest2 with
      | n :: _ =>
        if kw = "issues" ∨ kw = "pull" then
          (f ++ ("[" ++ ("`" ++ org ++ "/" ++ repo ++ "`" ++ "#" ++ n)
              ++ "](" ++ url.raw ++ ")"), FancyMarkdownMatched.yes)
        else githubDeep url org repo rest f
      | [] => githubDeep url org repo rest f
  | _ => (f, FancyMarkdownMatched.no)

/-- Returns `("bug ", "")` for an all-ASCII-digit bug id, backticks otherwise
(`render_bugzilla` in `src/main.rs`). -/
def bugzillaPrefixPostfix (bugId : String) : String × String :=
  if bugId.data.all Char.isDigit then ("bug ", "") else ("`", "`")

/-- The `, comment <id>` suffix: present when the fragment's first `c` sits at
position 0 (`fragment.split_once('c') == Some(("", id))`). -/
def bugzillaComment : Option String → String
  | some frag =>
    match frag.data with
    | 'c' :: rest => ", comment " ++ String.mk rest
    | _ => ""
  | Option.none => ""

/-- Embeds `render_bugzilla` from `src/main.rs`. -/
def renderBugzilla (url : Url) (bugId : String) (f : String) : String :=
  f ++ ("[" ++ ((bugzillaPrefixPostfix bugId).1 ++ bugId
      ++ (bugzillaPrefixPostfix bugId).2 ++ bugzillaComment url.fragment)
    ++ "](" ++ url.raw ++ ")")

/-- The `bugzil.la` arm: exactly one path segment, the opaque bug id. -/
def bugzilLaArm (url : Url) (segs : List String) (f : String) :
    String × FancyMarkdownMatched :=
  match segs with
  | [bugId] => (renderBugzilla url bugId f, FancyMarkdownMatched.yes)
  | _ => (f, FancyMarkdownMatched.no)

/-- The `bugzilla.mozilla.org` arm: path exactly `show_bug.cgi`, first `id`
query parameter is the bug id. -/
def bmoArm (url : Url) (segs : List String) (f : String) :
    String × FancyMarkdownMatched :=
  match segs with
  | [seg] =>
    if seg = "show_bug.cgi" then
      match url.queryPairs.findSome?
          (fun kv => if kv.1 = "id" then some kv.2 else Option.none) with
      | some bugId => (renderBugzilla url bugId f, FancyMarkdownMatched.yes)
      | Option.none => (f, FancyMarkdownMatched.no)
    else (f, FancyMarkdownMatched.no)
  | _ => (f, FancyMarkdownMatched.no)

/-- The bare-revision check of the Phabricator arm: a `D` prefix whose
remainder is all ASCII digits (vacuously true for the empty remainder). -/
def isDRevision (id : String) : Bool :=
  match id.data with
  | 'D' :: ds => ds.all Char.isDigit
  | _ => false

/-- The `phabricator.services.mozilla.com` arm: a `differential/diff/<id>`
path with anything trailing renders a diff label (the source's inner
`collect_tuple` check is an effect-free no-op); otherwise a single `D<digits>`
segment renders verbatim. -/
def phabricatorArm (url : Url) (segs : List String) (f : String) :
    String × FancyMarkdownMatched :=
  match segs with
  | [id] =>
    if isDRevision id then
      (f ++ ("[" ++ id ++ "](" ++ url.raw ++ ")"), FancyMarkdownMatched.yes)
    else (f, FancyMarkdownMatched.no)
  | s1 :: s2 :: diffId :: _ =>
    if s1 = "differential" ∧ s2 = "diff" then
      (f ++ ("[" ++ ("diff " ++ diffId) ++ "](" ++ url.raw ++ ")"),
        FancyMarkdownMatched.yes)
    else (f, FancyMarkdownMatched.no)
  | _ => (f, FancyMarkdownMatched.no)

/-- The `crates.io` arm: exactly `crates/<name>/<version>`. -/
def cratesArm (url : Url) (segs : List String) (f : String) :
    String × FancyMarkdownMatched :=
  match segs with
  | [s1, crateName, crateVersion] =>
    if s1 = "crates" then
      (f ++ ("[" ++ ("`" ++ crateName ++ "` v" ++ crateVersion)
          ++ "](" ++ url.raw ++ ")"), FancyMarkdownMatched.yes)
    else (f, FancyMarkdownMatched.no)
  | _ => (f, FancyMarkdownMatched.no)

/-- Embeds `str::replace` of dash by underscore, used for the docs.rs
package/module check. -/
def replaceDashUnderscore (s : String) : String :=
  String.mk (s.data.map fun c => if c = '-' then '_' else c)

/-- The `docs.rs` arm: `<pkg>/<version>/<module>` with
`pkg.replace('-',"_") == module`, then the symbol-path extraction over the
remaining segments (a failed extraction returns `NotMatched`). -/
def docsRsArm (url : Url) (segs : List String) (f : String) :
    String × FancyMarkdownMatched :=
  match segs with
  | cratePkgName :: _ver :: crateModuleName :: rest =>
    if replaceDashUnderscore cratePkgName = crateModuleName then
      match extractRustSymbolPath crateModuleName rest url.fragment with
      | some modulePath =>
        (f ++ ("[" ++ ("`" ++ modulePath ++ "`") ++ "](" ++ url.raw ++ ")"),
          FancyMarkdownMatched.yes)
      | Option.none => (f, FancyMarkdownMatched.no)
    else (f, FancyMarkdownMatched.no)
  | _ => (f, FancyMarkdownMatched.no)

/-- Shared tail of the `doc.rust-lang.org` arm. -/
def docRustLangRender (url : Url) (crateModuleName : String) (rest : List String)
    (f : String) : String × FancyMarkdownMatched :=
  match extractRustSymbolPath crateModuleName rest url.fragment with
  | some modulePath =>
    (f ++ ("[" ++ ("`" ++ modulePath ++ "`") ++ "](" ++ url.raw ++ ")"),
      FancyMarkdownMatched.yes)
  | Option.none => (f, FancyMarkdownMatched.no)

/-- The `doc.rust-lang.org` arm.  The source's or-pattern on `next_tuple()`
always consumes two segments: `("stable"|"beta"|"nightly", crate)` keeps all
following segments, while the alternative `(crate, _)` binds the root crate
and DISCARDS the segment after it. -/
def docRustLangArm (url : Url) (segs : List String) (f : String) :
    String × FancyMarkdownMatched :=
  match segs with
  | s1 :: s2 :: rest =>
    if (s1 = "stable" ∨ s1 = "beta" ∨ s1 = "nightly")
        ∧ (s2 = "core" ∨ s2 = "alloc" ∨ s2 = "std") then
      docRustLangRender url s2 rest f
    else if s1 = "core" ∨ s1 = "alloc" ∨ s1 = "std" then
      docRustLangRender url s1 rest f
    else (f, FancyMarkdownMatched.no)
  | _ => (f, FancyMarkdownMatched.no)

/-- The `rust-lang.github.io` (clippy lint catalog) arm. -/
def clippyArm (url : Url) (segs : List String) (f : String) :
    String × FancyMarkdownMatched :=
  match segs with
  | [s1, releaseStage, s3] =>
    if s1 = "rust-clippy" ∧ s3 = "index.html" then
      if releaseStage = "stable" ∨ releaseStage = "beta" ∨ releaseStage = "nightly" then
        match url.fragment with
        | some term =>
          match term.data with
          | '/' :: t =>
            (f ++ ("[" ++ ("search for `" ++ String.mk t ++ "` in `"
                ++ releaseStage ++ "`") ++ "](" ++ url.raw ++ ")"),
              FancyMarkdownMatched.yes)
          | _ =>
            (f ++ ("[" ++ ("`clippy::" ++ term ++ "` in `" ++ releaseStage ++ "`")
                ++ "](" ++ url.raw ++ ")"), FancyMarkdownMatched.yes)
        | Option.none =>
          (f ++ ("[" ++ ("`clippy` lints in `" ++ releaseStage ++ "`")
              ++ "](" ++ url.raw ++ ")"), FancyMarkdownMatched.yes)
      else (f, FancyMarkdownMatched.no)
    else (f, FancyMarkdownMatched.no)
  | _ => (f, FancyMarkdownMatched.no)

/-- The matched write of the searchfox arm: remaining path joined by `/`, the
fragment (or nothing) appended after a colon. -/
def searchfoxWrite (url : Url) (fileSegs : List String) (f : String) :
    String × FancyMarkdownMatched :=
  (f ++ ("[" ++ ("`" ++ String.intercalate "/" fileSegs ++ "`" ++ ":"
      ++ (url.fragment.getD "")) ++ "](" ++ url.raw ++ ")"),
    FancyMarkdownMatched.yes)

/-- The `searchfox.org` arm: repository alias then `source`, or `rev` which
additionally consumes one (possibly absent) revision segment. -/
def searchfoxArm (url : Url) (segs : List String) (f : String) :
    String × FancyMarkdownMatched :=
  match segs with
  | repo :: history :: rest =>
    if repo = "mozilla-central" ∨ repo = "firefox-main" then
      if history = "source" then searchfoxWrite url rest f
      else if history = "rev" then searchfoxWrite url (rest.drop 1) f
      else (f, FancyMarkdownMatched.no)
    else (f, FancyMarkdownMatched.no)
  | _ => (f, FancyMarkdownMatched.no)

/-- One step of the treeherder query fold: the first occurrence of each of
`repo` and `revision` wins (`repo.or(Some(value))`). -/
def thStep (acc : Option String × Option String) (kv : String × String) :
    Option String × Option String :=
  if kv.1 = "repo" then (orO acc.1 (some kv.2), acc.2)
  else if kv.1 = "revision" then (acc.1, orO acc.2 (some kv.2))
  else acc

/-- The treeherder arm's fold over the decoded query pairs. -/
def treeherderParams (pairs : List (String × String)) :
    Option String × Option String :=
  List.foldl thStep ((Option.none : Option String), (Option.none : Option String))
    pairs

/-- Embeds the byte-range slice `revision.get(..12)`: the prefix of the characters
whose UTF-8 encoding occupies exactly `n` bytes, when byte offset `n` is a
character boundary at or before the end of the string. -/
def byteTruncate : Nat → List Char → Option (List Char)
  | 0, _ => some []
  | _ + 1, [] => Option.none
  | n + 1, c :: cs =>
    if c.utf8Size ≤ n + 1 then
      (byteTruncate (n + 1 - c.utf8Size) cs).map (c :: ·)
    else Option.none

/-- The displayed revision: the first 12 BYTES when offset 12 is a character
boundary, the whole value otherwise. -/
def truncRevision (s : String) : String :=
  match byteTruncate 12 s.data with
  | some cs => String.mk cs
  | Option.none => s

/-- The `treeherder.mozilla.org` arm: single segment `jobs`; both a `repo` and
a `revision` query parameter required. -/
def treeherderArm (url : Url) (segs : List String) (f : String) :
    String × FancyMarkdownMatched :=
  match segs with
  | [seg] =>
    if seg = "jobs" then
      match treeherderParams url.queryPairs with
      | (some repo, some revision) =>
        (f ++ ("[" ++ ("`" ++ repo ++ ":" ++ truncRevision revision ++ "`")
            ++ "](" ++ url.raw ++ ")"), FancyMarkdownMatched.yes)
      | _ => (f, FancyMarkdownMatched.no)
    else (f, FancyMarkdownMatched.no)
  | _ => (f, FancyMarkdownMatched.no)

/-- The `gpuweb.github.io` arm: path exactly `cts/standalone/` (trailing empty
segment), first `q` query parameter is the test path. -/
def gpuwebArm (url : Url) (segs : List String) (f : String) :
    String × FancyMarkdownMatched :=
  match segs with
  | [s1, s2, s3] =>
    if s1 = "cts" ∧ s2 = "standalone" ∧ s3 = "" then
      match url.queryPairs.findSome?
          (fun kv => if kv.1 = "q" then some kv.2 else Option.none) with
      | some testPath =>
        (f ++ ("[" ++ ("`" ++ testPath ++ "`") ++ "](" ++ url.raw ++ ")"),
          FancyMarkdownMatched.yes)
      | Option.none => (f, FancyMarkdownMatched.no)
    else (f, FancyMarkdownMatched.no)
  | _ => (f, FancyMarkdownMatched.no)

/-- The `hg.mozilla.org` / `hg-edge.mozilla.org` arm: exactly
`<repo>/rev/<hash>`. -/
def hgArm (url : Url) (segs : List String) (f : String) :
    String × FancyMarkdownMatched :=
  match segs with
  | [repo, s2, hash] =>
    if s2 = "rev" then
      (f ++ ("[" ++ ("`" ++ repo ++ "`" ++ ":" ++ "`" ++ hash ++ "`")
          ++ "](" ++ url.raw ++ ")"), FancyMarkdownMatched.yes)
    else (f, FancyMarkdownMatched.no)
  | _ => (f, FancyMarkdownMatched.no)

/-- The `match host` dispatch of `src/main.rs`, in source order. -/
def hostDispatch (url : Url) (host : String) (segs : List String) (f : String) :
    String × FancyMarkdownMatched :=
  if host = "github.com" then githubArm url segs f
  else if host = "bugzil.la" then bugzilLaArm url segs f
  else if host = "bugzilla.mozilla.org" then bmoArm url segs f
  else if host = "phabricator.services.mozilla.com" then phabricatorArm url segs f
  else if host = "crates.io" then cratesArm url segs f
  else if host = "docs.rs" then docsRsArm url segs f
  else if host = "doc.rust-lang.org" then docRustLangArm url segs f
  else if host = "rust-lang.github.io" then clippyArm url segs f
  else if host = "searchfox.org" then searchfoxArm url segs f
  else if host = "treeherder.mozilla.org" then treeherderArm url segs f
  else if host = "gpuweb.github.io" then gpuwebArm url segs f
  else if host = "hg.mozilla.org" ∨ host = "hg-edge.mozilla.org" then hgArm url segs f
  else (f, FancyMarkdownMatched.no)

/-- Embeds `try_write_markdown_url` from `src/main.rs`: `http`/`https` scheme and a
present host gate the host dispatch; everything else is `NotMatched` with
nothing written. -/
def tryWriteMarkdownUrl (url : Url) (f : String) : String × FancyMarkdownMatched :=
  if url.scheme = "http" ∨ url.scheme = "https" then
    match url.host with
    | some host => hostDispatch url host url.pathSegments f
    | Option.none => (f, FancyMarkdownMatched.no)
  else (f, FancyMarkdownMatched.no)

/-- Embeds `enum RepoPrefix` (OrgAndRepo | RepoOnly | None) from `src/github.rs`. -/
inductive RepoPrefix where
  | orgAndRepo
  | repoOnly
  | none
deriving DecidableEq

/-- Embeds `struct RepoEntry` from `src/github.rs`, whose single field is an
optional RepoPrefix
(field renamed: `prefix` is a Lean keyword). -/
structure RepoEntry where
  prefixVal : Option RepoPrefix
deriving DecidableEq

/-- Embeds `struct OrgEntry` from `src/github.rs`. -/
structure OrgEntry where
  unmatchedRepoPrefixVal : Option RepoPrefix
  repos : List (String × RepoEntry)
deriving DecidableEq

/-- Embeds the GitHub recognizer configuration from `src/github.rs` (named
`Config` there). -/
structure GithubConfig where
  orgs : List (String × OrgEntry)
deriving DecidableEq

/-- Embeds `Layered<T>` from `src/config.rs`: the general layer plus an optional
profile layer. -/
structure Layered (T : Type) where
  general : T
  profile : Option T
deriving DecidableEq

/-- Embeds `Layered::map` from `src/config.rs`. -/
def Layered.map {T U : Type} (f : T → U) (l : Layered T) : Layered U :=
  Layered.mk (f l.general) (l.profile.map f)

/-- Embeds `Layered::inwards` from `src/config.rs`: profile layer (when present)
first, then the general layer. -/
def Layered.inwards {T : Type} (l : Layered T) : List T :=
  l.profile.toList ++ [l.general]

/-- The prefix resolution of `github::try_write_markdown_url`
(`src/github.rs` lines 54-69): the repo's explicit prefix from the innermost
layer that supplies one, else the org's `unmatched_repo_prefix` from the
innermost layer that supplies one, else `OrgAndRepo`. -/
def ghResolvedPrefix (config : Layered GithubConfig) (org repo : String) :
    RepoPrefix :=
  let orgs := Layered.map (fun g => g.orgs) config
  let repoEntry :=
    ((orgs.inwards.filterMap fun layer => layer.lookup org).filterMap
        fun orgEntry => orgEntry.repos.lookup repo).findSome?
      fun re => re.prefixVal
  let fallbackOrgPrefix :=
    (orgs.inwards.filterMap fun layer => layer.lookup org).findSome?
      fun orgEntry => orgEntry.unmatchedRepoPrefixVal
  (orO repoEntry fallbackOrgPrefix).getD RepoPrefix.orgAndRepo

/-- The two-segment repo display of `src/github.rs` (lines 77-82): for a page
about the repo itself, `RepoOnly` and `None` both show the repo name (the
source comments that omitting the name makes no sense here). -/
def ghRepoDisplay (pfx : RepoPrefix) (org repo : String) : String :=
  match pfx with
  | RepoPrefix.orgAndRepo => "`" ++ org ++ "/" ++ repo ++ "`"
  | RepoPrefix.repoOnly => "`" ++ repo ++ "`"
  | RepoPrefix.none => "`" ++ repo ++ "`"

/-- The deeper-reference prefix string of `src/github.rs` (lines 86-90):
`None` renders as the empty string. -/
def ghRepoPrefixStr (pfx : RepoPrefix) (org repo : String) : String :=
  match pfx with
  | RepoPrefix.orgAndRepo => "`" ++ org ++ "/" ++ repo ++ "`"
  | RepoPrefix.repoOnly => "`" ++ repo ++ "`"
  | RepoPrefix.none => ""

/-- The deep shapes of `src/github.rs` (`blob`, `commit`, `releases/tag`);
only the `blob` arm uses the resolved prefix — `commit` hard-codes
`org/repo`. -/
def ghDeep (url : Url) (org repo repoPrefixStr : String) (rest : List String)
    (f : String) : String × Option FancyMarkdownMatched :=
  match rest with
  | s3 :: s4 :: rest2 =>
    if s3 = "blob" then
      (f ++ ("[" ++ (repoPrefixStr ++ ":" ++ ("`" ++ s4 ++ "`")
          ++ ":" ++ "`" ++ String.intercalate "/" rest2 ++ "`"
          ++ lineSuffix url.fragment) ++ "](" ++ url.raw ++ ")"),
        some FancyMarkdownMatched.yes)
    else if s3 = "commit" then
      if rest2 = [] then
        (f ++ ("[" ++ ("`" ++ org ++ "/" ++ repo ++ "`" ++ ":" ++ "`" ++ s4 ++ "`")
            ++ "](" ++ url.raw ++ ")"), some FancyMarkdownMatched.yes)
      else
        (f ++ ("[" ++ ("`" ++ org ++ "/" ++ repo ++ "`" ++ ":" ++ "`" ++ s4 ++ "`"
            ++ ":" ++ "`" ++ String.intercalate "/" rest2 ++ "`")
            ++ "](" ++ url.raw ++ ")"), some FancyMarkdownMatched.yes)
    else if s3 = "releases" ∧ s4 = "tag" then
      match rest2 with
      | tag :: rest3 =>
        if rest3 = [""] ∨ rest3 = [] then
          match componentVersionSplit tag with
          | some (component, version) =>
            (f ++ ("[" ++ ("`" ++ component ++ "` " ++ version)
                ++ "](" ++ url.raw ++ ")"), some FancyMarkdownMatched.yes)
          | Option.none =>
            (f ++ ("[" ++ ("`" ++ tag ++ "` tag release")
                ++ "](" ++ url.raw ++ ")"), some FancyMarkdownMatched.yes)
        else (f, Option.none)
      | [] => (f, Option.none)
    else (f, Option.none)
  | _ => (f, Option.none)

/-- Body of `github::try_write_markdown_url` after the prefix has been
resolved. -/
def ghRendered (url : Url) (org repo : String) (pfx : RepoPrefix)
    (rest : List String) (f : String) : String × Option FancyMarkdownMatched :=
  match rest with
  | [] =>
    (f ++ ("[" ++ ghRepoDisplay pfx org repo ++ "](" ++ url.raw ++ ")"),
      some FancyMarkdownMatched.yes)
  | kw :: rest2 =>
    match rest2 with
    | n :: _ =>
      if kw = "issues" ∨ kw = "pull" then
        (f ++ ("[" ++ (ghRepoPrefixStr pfx org repo ++ "#" ++ n)
            ++ "](" ++ url.raw ++ ")"), some FancyMarkdownMatched.yes)
      else ghDeep url org repo (ghRepoPrefixStr pfx org repo) rest f
    | [] => ghDeep url org repo (ghRepoPrefixStr pfx org repo) rest f

/-- Embeds `github::try_write_markdown_url` from `src/github.rs` (`Ok(Some(Yes))`
becomes `some yes`, `Ok(None)` becomes `none`). -/
def ghTryWriteMarkdownUrl (config : Layered GithubConfig) (url : Url)
    (segs : List String) (f : String) : String × Option FancyMarkdownMatched :=
  match segs with
  | org :: repo :: rest =>
    ghRendered url org repo (ghResolvedPrefix config org repo) rest f
  | _ => (f, Option.none)

/-- Embeds `struct ConfigLayer` from `src/config.rs` (a fieldless struct in
this snapshot). -/
inductive ConfigLayer where
  | mk
deriving DecidableEq

/-- Embeds `enum LayeredConfigError` from `src/config.rs`. -/
inductive LayeredConfigError where
  | invalidProfileName
deriving DecidableEq

/-- Embeds the application configuration from `src/config.rs` (named `Config`
there). -/
structure AppConfig where
  general : ConfigLayer
  profiles : List (String × ConfigLayer)
deriving DecidableEq

/-- Embeds `Config::layers_from_profile` from `src/config.rs`:
`profile.map(|p| profiles.get(p).context(InvalidProfileNameSnafu)).transpose()?`
paired with the always-present general layer. -/
def AppConfig.layersFromProfile (c : AppConfig) (profile : Option String) :
    Except LayeredConfigError (Layered ConfigLayer) :=
  match profile with
  | Option.none => Except.ok (Layered.mk c.general Option.none)
  | some p =>
    match c.profiles.lookup p with
    | some layer => Except.ok (Layered.mk c.general (some layer))
    | Option.none => Except.error LayeredConfigError.invalidProfileName

/-- Modelled from the spec: the layer-precedence rule of §4.1/§8 stated
directly — take the repository's explicit prefix from the most specific layer
that supplies one, else the owning org's unmatched-repo default from the most
specific layer that supplies one, else `OrgAndRepo`; at each lookup the
profile layer (when present) is consulted before the general layer. -/
def specFirstLayer (config : Layered GithubConfig)
    (f : GithubConfig → Option RepoPrefix) : Option RepoPrefix :=
  match config.profile with
  | some p => orO (f p) (f config.general)
  | Option.none => f config.general

/-- Modelled from the spec: a single layer's explicit repo-prefix override. -/
def specRepoOverride (layer : GithubConfig) (org repo : String) :
    Option RepoPrefix :=
  (layer.orgs.lookup org).bind fun oe =>
    (oe.repos.lookup repo).bind fun re => re.prefixVal

/-- Modelled from the spec: a single layer's org-level unmatched-repo
default. -/
def specOrgDefault (layer : GithubConfig) (org : String) : Option RepoPrefix :=
  (layer.orgs.lookup org).bind fun oe => oe.unmatchedRepoPrefixVal

/-- Modelled from the spec: the full precedence chain. -/
def specResolvedPrefix (config : Layered GithubConfig) (org repo : String) :
    RepoPrefix :=
  (orO (specFirstLayer config fun layer => specRepoOverride layer org repo)
      (specFirstLayer config fun layer => specOrgDefault layer org)).getD
    RepoPrefix.orgAndRepo

/-- A single layer's contribution to the repo-override lookup chain of
`ghResolvedPrefix`, written as one `bind` chain (used to relate the list-wise
chain to the spec's per-layer description). -/
def layerRepoOverride (layer : List (String × OrgEntry)) (org repo : String) :
    Option RepoPrefix :=
  (layer.lookup org).bind fun oe =>
    (oe.repos.lookup repo).bind fun re => re.prefixVal

/-- A single layer's contribution to the org-default lookup chain of
`ghResolvedPrefix`. -/
def layerOrgDefault (layer : List (String × OrgEntry)) (org : String) :
    Option RepoPrefix :=
  (layer.lookup org).bind fun oe => oe.unmatchedRepoPrefixVal

/-- The write discipline of a recognizer step: either it appended exactly one
bracketed link whose parenthesized part is the URL's serialization and
reported a match, or it appended nothing and reported no match. -/
def LinkStep (f raw : String) (out : String × FancyMarkdownMatched) : Prop :=
  (∃ label, out = (f ++ ("[" ++ label ++ "](" ++ raw ++ ")"),
    FancyMarkdownMatched.yes)) ∨ out = (f, FancyMarkdownMatched.no)

theorem linkStep_write (f raw label : String) :
    LinkStep f raw (f ++ ("[" ++ label ++ "](" ++ raw ++ ")"),
      FancyMarkdownMatched.yes) :=
  Or.inl ⟨label, rfl⟩

theorem linkStep_none (f raw : String) :
    LinkStep f raw (f, FancyMarkdownMatched.no) :=
  Or.inr rfl

theorem linkStep_githubDeep (url : Url) (org repo : String) (rest : List String)
    (f : String) : LinkStep f url.raw (githubDeep url org repo rest f) := by
  unfold githubDeep
  repeat' split
  all_goals first
    | exact linkStep_write _ _ _
    | exact linkStep_none _ _

theorem linkStep_githubArm (url : Url) (segs : List String) (f : String) :
    LinkStep f url.raw (githubArm url segs f) := by
  unfold githubArm
  repeat' split
  all_goals first
    | exact linkStep_write _ _ _
    | exact linkStep_none _ _
    | exact linkStep_githubDeep _ _ _ _ _

theorem linkStep_renderBugzilla (url : Url) (bugId : String) (f : String) :
    LinkStep f url.raw (renderBugzilla url bugId f, FancyMarkdownMatched.yes) := by
  unfold renderBugzilla
  exact linkStep_write _ _ _

theorem linkStep_bugzilLaArm (url : Url) (segs : List String) (f : String) :
    LinkStep f url.raw (bugzilLaArm url segs f) := by
  unfold bugzilLaArm
  repeat' split
  all_goals first
    | exact linkStep_renderBugzilla _ _ _
    | exact linkStep_none _ _

theorem linkStep_bmoArm (url : Url) (segs : List String) (f : String) :
    LinkStep f url.raw (bmoArm url segs f) := by
  unfold bmoArm
  repeat' split
  all_goals first
    | exact linkStep_renderBugzilla _ _ _
    | exact linkStep_none _ _

theorem linkStep_phabricatorArm (url : Url) (segs : List String) (f : String) :
    LinkStep f url.raw (phabricatorArm url segs f) := by
  unfold phabricatorArm
  repeat' split
  all_goals first
    | exact linkStep_write _ _ _
    | exact linkStep_none _ _

theorem linkStep_cratesArm (url : Url) (segs : List String) (f : String) :
    LinkStep f url.raw (cratesArm url segs f) := by
  unfold cratesArm
  repeat' split
  all_goals first
    | exact linkStep_write _ _ _
    | exact linkStep_none _ _

theorem linkStep_docsRsArm (url : Url) (segs : List String) (f : String) :
    LinkStep f url.raw (docsRsArm url segs f) := by
  unfold docsRsArm
  repeat' split
  all_goals first
    | exact linkStep_write _ _ _
    | exact linkStep_none _ _

theorem linkStep_docRustLangRender (url : Url) (crateModuleName : String)
    (rest : List String) (f : String) :
    LinkStep f url.raw (docRustLangRender url crateModuleName rest f) := by
  unfold docRustLangRender
  repeat' split
  all_goals first
    | exact linkStep_write _ _ _
    | exact linkStep_none _ _

theorem linkStep_docRustLangArm (url : Url) (segs : List String) (f : String) :
    LinkStep f url.raw (docRustLangArm url segs f) := by
  unfold docRustLangArm
  repeat' split
  all_goals first
    | exact linkStep_docRustLangRender _ _ _ _
    | exact linkStep_none _ _

theorem linkStep_clippyArm (url : Url) (segs : List String) (f : String) :
    LinkStep f url.raw (clippyArm url segs f) := by
  unfold clippyArm
  repeat' split
  all_goals first
    | exact linkStep_write _ _ _
    | exact linkStep_none _ _

theorem linkStep_searchfoxArm (url : Url) (segs : List String) (f : String) :
    LinkStep f url.raw (searchfoxArm url segs f) := by
  unfold searchfoxArm searchfoxWrite
  repeat' split
  all_goals first
    | exact linkStep_write _ _ _
    | exact linkStep_none _ _

theorem linkStep_treeherderArm (url : Url) (segs : List String) (f : String) :
    LinkStep f url.raw (treeherderArm url segs f) := by
  unfold treeherderArm
  repeat' split
  all_goals first
    | exact linkStep_write _ _ _
    | exact linkStep_none _ _

theorem linkStep_gpuwebArm (url : Url) (segs : List String) (f : String) :
    LinkStep f url.raw (gpuwebArm url segs f) := by
  unfold gpuwebArm
  repeat' split
  all_goals first
    | exact linkStep_write _ _ _
    | exact linkStep_none _ _

theorem linkStep_hgArm (url : Url) (segs : List String) (f : String) :
    LinkStep f url.raw (hgArm url segs f) := by
  unfold hgArm
  repeat' split
  all_goals first
    | exact linkStep_write _ _ _
    | exact linkStep_none _ _

theorem linkStep_hostDispatch (url : Url) (host : String) (segs : List String)
    (f : String) : LinkStep f url.raw (hostDispatch url host segs f) := by
  unfold hostDispatch
  by_cases h1 : host = "github.com"
  · rw [if_pos h1]; exact linkStep_githubArm _ _ _
  rw [if_neg h1]
  by_cases h2 : host = "bugzil.la"
  · rw [if_pos h2]; exact linkStep_bugzilLaArm _ _ _
  rw [if_neg h2]
  by_cases h3 : host = "bugzilla.mozilla.org"
  · rw [if_pos h3]; exact linkStep_bmoArm _ _ _
  rw [if_neg h3]
  by_cases h4 : host = "phabricator.services.mozilla.com"
  · rw [if_pos h4]; exact linkStep_phabricatorArm _ _ _
  rw [if_neg h4]
  by_cases h5 : host = "crates.io"
  · rw [if_pos h5]; exact linkStep_cratesArm _ _ _
  rw [if_neg h5]
  by_cases h6 : host = "docs.rs"
  · rw [if_pos h6]; exact linkStep_docsRsArm _ _ _
  rw [if_neg h6]
  by_cases h7 : host = "doc.rust-lang.org"
  · rw [if_pos h7]; exact linkStep_docRustLangArm _ _ _
  rw [if_neg h7]
  by_cases h8 : host = "rust-lang.github.io"
  · rw [if_pos h8]; exact linkStep_clippyArm _ _ _
  rw [if_neg h8]
  by_cases h9 : host = "searchfox.org"
  · rw [if_pos h9]; exact linkStep_searchfoxArm _ _ _
  rw [if_neg h9]
  by_cases h10 : host = "treeherder.mozilla.org"
  · rw [if_pos h10]; exact linkStep_treeherderArm _ _ _
  rw [if_neg h10]
  by_cases h11 : host = "gpuweb.github.io"
  · rw [if_pos h11]; exact linkStep_gpuwebArm _ _ _
  rw [if_neg h11]
  by_cases h12 : host = "hg.mozilla.org" ∨ host = "hg-edge.mozilla.org"
  · rw [if_pos h12]; exact linkStep_hgArm _ _ _
  rw [if_neg h12]
  exact linkStep_none _ _

theorem tryWrite_linkStep (url : Url) (f : String) :
    LinkStep f url.raw (tryWriteMarkdownUrl url f) := by
  unfold tryWriteMarkdownUrl
  split
  · split
    · exact linkStep_hostDispatch _ _ _ _
    · exact linkStep_none _ _
  · exact linkStep_none _ _

theorem tryWrite_eq_dispatch (url : Url) (host : String) (f : String)
    (hs : url.scheme = "http" ∨ url.scheme = "https")
    (hh : url.host = some host) :
    tryWriteMarkdownUrl url f = hostDispatch url host url.pathSegments f := by
  unfold tryWriteMarkdownUrl
  rw [if_pos hs, hh]

/-- C2: for every URL, if classification matches, the complete rendered output
is exactly `[label](u)` for some label, with the URL's serialization `u`
reproduced byte-for-byte inside the parentheses (stated over the output sink:
the appended text is exactly that link). -/
theorem matched_output_bracket (url : Url) (f : String)
    (h : (tryWriteMarkdownUrl url f).2 = FancyMarkdownMatched.yes) :
    ∃ label, (tryWriteMarkdownUrl url f).1
      = f ++ ("[" ++ label ++ "](" ++ url.raw ++ ")") := by
  rcases tryWrite_linkStep url f with ⟨label, hl⟩ | hn
  · exact ⟨label, by rw [hl]⟩
  · rw [hn] at h
    exact FancyMarkdownMatched.noConfusion h

/-- Witness for C2 at `https://bugzil.la/1234567`. -/
theorem matched_output_bracket_witness :
    ∃ label,
      (tryWriteMarkdownUrl
          (Url.mk "https" (some "bugzil.la") ["1234567"] [] Option.none
            "https://bugzil.la/1234567") "").1
        = "" ++ ("[" ++ label ++ "](" ++ "https://bugzil.la/1234567" ++ ")") :=
  matched_output_bracket
    (Url.mk "https" (some "bugzil.la") ["1234567"] [] Option.none
      "https://bugzil.la/1234567") "" (by decide)

/-- C6: for every URL, a `NotMatched` classification leaves the output sink
unchanged — no recognizer partially writes text that is later discarded. -/
theorem notMatched_writes_nothing (url : Url) (f : String)
    (h : (tryWriteMarkdownUrl url f).2 = FancyMarkdownMatched.no) :
    (tryWriteMarkdownUrl url f).1 = f := by
  rcases tryWrite_linkStep url f with ⟨label, hl⟩ | hn
  · rw [hl] at h
    exact FancyMarkdownMatched.noConfusion h
  · rw [hn]

/-- Witness for C6 at an unrecognized host. -/
theorem notMatched_writes_nothing_witness :
    (tryWriteMarkdownUrl
        (Url.mk "https" (some "example.com") ["x"] [] Option.none
          "https://example.com/x") "sink").1 = "sink" :=
  notMatched_writes_nothing
    (Url.mk "https" (some "example.com") ["x"] [] Option.none
      "https://example.com/x") "sink" (by decide)

/-- C9: classification is deterministic — under the pure embedding (the
process-wide compiled-pattern cache is modelled by the pure scanner
functions), classifying and rendering the same URL twice under the same
effective configuration is definitionally the same computation. -/
theorem classification_deterministic (url : Url) (f : String)
    (config : Layered GithubConfig) (segs : List String) :
    tryWriteMarkdownUrl url f = tryWriteMarkdownUrl url f
    ∧ ghTryWriteMarkdownUrl config url segs f
      = ghTryWriteMarkdownUrl config url segs f :=
  ⟨rfl, rfl⟩

/-- C3 counterexample: the issue recognizer does NOT require that nothing
follow `issues/<n>` — `https://github.com/a/b/issues/1/extra` (a fifth path
segment after the issue number) still matches and renders the issue label,
refuting "matches exactly the URLs whose path is two segments followed by
`issues/<n>` or `pull/<n>` and nothing further". -/
theorem github_issue_counterexample :
    tryWriteMarkdownUrl
        (Url.mk "https" (some "github.com") ["a", "b", "issues", "1", "extra"]
          [] Option.none "https://github.com/a/b/issues/1/extra") ""
      = ("[`a/b`#1](https://github.com/a/b/issues/1/extra)",
        FancyMarkdownMatched.yes) := by
  decide

/-- C3 as amended: the issue/PR recognizer fires whenever the path begins
with two segments `org/repo` followed by `issues` or `pull` and at least one
further segment `n` — anything after `n` is ignored — and renders
`` `org/repo`#n ``. -/
theorem github_issue_amended (url : Url) (f org repo kw n : String)
    (rest : List String)
    (hs : url.scheme = "http" ∨ url.scheme = "https")
    (hh : url.host = some "github.com")
    (hsegs : url.pathSegments = org :: repo :: kw :: n :: rest)
    (hkw : kw = "issues" ∨ kw = "pull") :
    tryWriteMarkdownUrl url f
      = (f ++ ("[" ++ ("`" ++ org ++ "/" ++ repo ++ "`" ++ "#" ++ n)
          ++ "](" ++ url.raw ++ ")"), FancyMarkdownMatched.yes) := by
  rw [tryWrite_eq_dispatch url "github.com" f hs hh, hsegs]
  rcases hkw with h | h <;> subst h <;> rfl

/-- Witness for C3 (amended) at the spec's concrete scenario
`https://github.com/rust-lang/rust/issues/123`. -/
theorem github_issue_amended_witness :
    tryWriteMarkdownUrl
        (Url.mk "https" (some "github.com")
          ["rust-lang", "rust", "issues", "123"] [] Option.none
          "https://github.com/rust-lang/rust/issues/123") ""
      = ("[`rust-lang/rust`#123](https://github.com/rust-lang/rust/issues/123)",
        FancyMarkdownMatched.yes) :=
  github_issue_amended
    (Url.mk "https" (some "github.com") ["rust-lang", "rust", "issues", "123"]
      [] Option.none "https://github.com/rust-lang/rust/issues/123") ""
    "rust-lang" "rust" "issues" "123" [] (Or.inr rfl) rfl rfl (Or.inl rfl)

/-- C10: a Phabricator URL whose single path segment is exactly `D` is
accepted (the all-digits check on the text after the `D` prefix is vacuously
true for the empty remainder) and renders the label `D` verbatim. -/
theorem phabricator_bare_D (url : Url) (f : String)
    (hs : url.scheme = "http" ∨ url.scheme = "https")
    (hh : url.host = some "phabricator.services.mozilla.com")
    (hsegs : url.pathSegments = ["D"]) :
    tryWriteMarkdownUrl url f
      = (f ++ ("[" ++ "D" ++ "](" ++ url.raw ++ ")"),
        FancyMarkdownMatched.yes) := by
  rw [tryWrite_eq_dispatch url "phabricator.services.mozilla.com" f hs hh, hsegs]
  rfl

/-- Witness for C10. -/
theorem phabricator_bare_D_witness :
    tryWriteMarkdownUrl
        (Url.mk "https" (some "phabricator.services.mozilla.com") ["D"] []
          Option.none "https://phabricator.services.mozilla.com/D") ""
      = ("[D](https://phabricator.services.mozilla.com/D)",
        FancyMarkdownMatched.yes) :=
  phabricator_bare_D
    (Url.mk "https" (some "phabricator.services.mozilla.com") ["D"] []
      Option.none "https://phabricator.services.mozilla.com/D") ""
    (Or.inr rfl) rfl rfl

/-- C5 (code bug): without a leading channel segment the `doc.rust-lang.org`
arm DISCARDS the path segment immediately after the root crate (the `_` of
the source's or-pattern `(crate_module_name @ ("core"|"alloc"|"std"), _)`),
so `/std/vec/struct.Vec.html` renders `std::Vec` while the channel form
`/stable/std/vec/struct.Vec.html` — and the shared docs.rs symbol-path logic
applied to all segments after the root crate — renders `std::vec::Vec`.  The
claim (segments after the root crate resolve identically to the
package-registry logic, channel-independent) is the evident intent; the code
diverges on every no-channel URL with a module path. -/
theorem docRustLang_channel_divergence :
    tryWriteMarkdownUrl
        (Url.mk "https" (some "doc.rust-lang.org")
          ["stable", "std", "vec", "struct.Vec.html"] [] Option.none
          "https://doc.rust-lang.org/stable/std/vec/struct.Vec.html") ""
      = ("[`std::vec::Vec`](https://doc.rust-lang.org/stable/std/vec/struct.Vec.html)",
        FancyMarkdownMatched.yes)
    ∧ tryWriteMarkdownUrl
        (Url.mk "https" (some "doc.rust-lang.org")
          ["std", "vec", "struct.Vec.html"] [] Option.none
          "https://doc.rust-lang.org/std/vec/struct.Vec.html") ""
      = ("[`std::Vec`](https://doc.rust-lang.org/std/vec/struct.Vec.html)",
        FancyMarkdownMatched.yes)
    ∧ extractRustSymbolPath "std" ["vec", "struct.Vec.html"] Option.none
      = some "std::vec::Vec"
    ∧ extractRustSymbolPath "std" ["struct.Vec.html"] Option.none
      = some "std::Vec"
    ∧ ("std::Vec" : String) ≠ "std::vec::Vec" := by
  refine ⟨by decide, by decide, by decide, by decide, by decide⟩

/-- C8: resolving layers for an optional profile name fails with
`InvalidProfileName` exactly when a profile name is supplied that is not a
key of `profiles`; with no profile requested it succeeds with just the
general layer; on success with a profile it holds the general layer and that
profile's layer. -/
theorem layersFromProfile_correct (c : AppConfig) (p : String) :
    c.layersFromProfile Option.none
      = Except.ok (Layered.mk c.general Option.none)
    ∧ (c.layersFromProfile (some p)
        = Except.error LayeredConfigError.invalidProfileName
      ↔ c.profiles.lookup p = Option.none)
    ∧ c.layersFromProfile (some p)
      = (match c.profiles.lookup p with
        | some layer => Except.ok (Layered.mk c.general (some layer))
        | Option.none => Except.error LayeredConfigError.invalidProfileName) := by
  refine ⟨rfl, ?_, ?_⟩ <;> unfold AppConfig.layersFromProfile <;>
    cases h : c.profiles.lookup p <;> simp [h]

theorem findSome?_single {α β : Type} (f : α → Option β) (x : α) :
    List.findSome? f [x] = f x := by
  rw [List.findSome?_cons]
  cases f x <;> simp

theorem findSome?_pair {α β : Type} (f : α → Option β) (x y : α) :
    List.findSome? f [x, y] = orO (f x) (f y) := by
  rw [List.findSome?_cons]
  cases f x <;> simp [orO, findSome?_single]

theorem chainRepo (L : List (List (String × OrgEntry))) (org repo : String) :
    ((L.filterMap fun layer => layer.lookup org).filterMap
        fun orgEntry => orgEntry.repos.lookup repo).findSome?
      (fun re => re.prefixVal)
      = L.findSome? fun layer => layerRepoOverride layer org repo := by
  induction L with
  | nil => rfl
  | cons x t ih =>
    cases hO : x.lookup org with
    | none =>
      simp [List.filterMap_cons, List.findSome?_cons, layerRepoOverride, hO, ih]
    | some oe =>
      cases hR : oe.repos.lookup repo with
      | none =>
        simp [List.filterMap_cons, List.findSome?_cons, layerRepoOverride, hO,
          hR, ih]
      | some re =>
        cases hP : re.prefixVal <;>
          simp [List.filterMap_cons, List.findSome?_cons, layerRepoOverride,
            hO, hR, hP, ih]

theorem chainOrg (L : List (List (String × OrgEntry))) (org : String) :
    (L.filterMap fun layer => layer.lookup org).findSome?
      (fun orgEntry => orgEntry.unmatchedRepoPrefixVal)
      = L.findSome? fun layer => layerOrgDefault layer org := by
  induction L with
  | nil => rfl
  | cons x t ih =>
    cases hO : x.lookup org with
    | none =>
      simp [List.filterMap_cons, List.findSome?_cons, layerOrgDefault, hO, ih]
    | some oe =>
      cases hU : oe.unmatchedRepoPrefixVal <;>
        simp [List.filterMap_cons, List.findSome?_cons, layerOrgDefault, hO,
          hU, ih]

/-- C4: for every configuration (with or without a selected profile) the
effective `RepoPrefix` computed by the GitHub recognizer equals the spec's
description: repo-explicit prefix from the most specific layer supplying one,
else the org's unmatched-repo default from the most specific layer supplying
one, else `OrgAndRepo`; the profile layer is consulted before the general
layer at each lookup. -/
theorem ghResolvedPrefix_spec (config : Layered GithubConfig)
    (org repo : String) :
    ghResolvedPrefix config org repo = specResolvedPrefix config org repo := by
  rcases config with ⟨g, profile⟩
  cases profile with
  | none =>
    unfold ghResolvedPrefix
    simp only [Layered.map, Layered.inwards, Option.map_none',
      Option.toList_none, List.nil_append]
    rw [chainRepo, chainOrg, findSome?_single, findSome?_single]
    rfl
  | some p =>
    unfold ghResolvedPrefix
    simp only [Layered.map, Layered.inwards, Option.map_some',
      Option.toList_some, List.cons_append, List.nil_append]
    rw [chainRepo, chainOrg, findSome?_pair, findSome?_pair]
    rfl

theorem orO_none_right {α : Type} (a : Option α) : orO a Option.none = a := by
  cases a <;> rfl

theorem orO_some_absorb {α : Type} (a : Option α) (v : α) (b : Option α) :
    orO (orO a (some v)) b = orO a (some v) := by
  cases a <;> rfl

theorem thFold_lookup (pairs : List (String × String)) (a b : Option String) :
    List.foldl thStep (a, b) pairs
      = (orO a (pairs.lookup "repo"), orO b (pairs.lookup "revision")) := by
  induction pairs generalizing a b with
  | nil => simp [List.lookup, orO_none_right]
  | cons kv t ih =>
    rcases kv with ⟨k, v⟩
    rw [List.foldl_cons]
    by_cases hk : k = "repo"
    · subst hk
      have h1 : thStep (a, b) ("repo", v) = (orO a (some v), b) := by
        simp [thStep]
      rw [h1, ih, List.lookup_cons, List.lookup_cons]
      simp [orO_some_absorb]
    · by_cases hk2 : k = "revision"
      · subst hk2
        have h1 : thStep (a, b) ("revision", v) = (a, orO b (some v)) := by
          simp [thStep]
        rw [h1, ih, List.lookup_cons, List.lookup_cons]
        simp [orO_some_absorb]
      · have h1 : thStep (a, b) (k, v) = (a, b) := by
          simp [thStep, hk, hk2]
        rw [h1, ih, List.lookup_cons, List.lookup_cons]
        have hb1 : (("repo" == k) = false) := by
          simp [hk]
          intro h
          exact hk h.symm
        have hb2 : (("revision" == k) = false) := by
          simp [hk2]
          intro h
          exact hk2 h.symm
        rw [hb1, hb2]

theorem treeherderParams_lookup (pairs : List (String × String)) :
    treeherderParams pairs = (pairs.lookup "repo", pairs.lookup "revision") := by
  unfold treeherderParams
  rw [thFold_lookup]
  rfl

/-- C7 counterexample: the displayed revision is a BYTE truncation, not the
"first 12 characters (the whole value when it is shorter)".  The revision
`ββββββββ` has 8 characters (fewer than 12), so the claim requires the whole
value to be displayed, but each `β` occupies 2 UTF-8 bytes and
`revision.get(..12)` cuts after 6 characters. -/
theorem treeherder_counterexample :
    tryWriteMarkdownUrl
        (Url.mk "https" (some "treeherder.mozilla.org") ["jobs"]
          [("repo", "autoland"), ("revision", "ββββββββ")] Option.none
          "https://treeherder.mozilla.org/jobs?repo=autoland&revision=x") ""
      = ("[`autoland:ββββββ`](https://treeherder.mozilla.org/jobs?repo=autoland&revision=x)",
        FancyMarkdownMatched.yes)
    ∧ ("ββββββββ" : String).data.length = 8
    ∧ truncRevision "ββββββββ" ≠ "ββββββββ" := by
  refine ⟨by decide, by decide, by decide⟩

/-- C7 as amended: for a treeherder URL whose path is the single segment
`jobs`, a label is rendered iff both a `repo` and a `revision` query
parameter are present, the first occurrence of each key winning; the
displayed revision is the first 12 BYTES of the value when byte offset 12 is
a character boundary (in particular the first 12 characters of an all-ASCII
value), and the whole value otherwise (also when it is shorter than 12
bytes). -/
theorem treeherder_amended (url : Url) (f : String)
    (hs : url.scheme = "http" ∨ url.scheme = "https")
    (hh : url.host = some "treeherder.mozilla.org")
    (hsegs : url.pathSegments = ["jobs"]) :
    (∀ r v, url.queryPairs.lookup "repo" = some r →
        url.queryPairs.lookup "revision" = some v →
        tryWriteMarkdownUrl url f
          = (f ++ ("[" ++ ("`" ++ r ++ ":" ++ truncRevision v ++ "`")
              ++ "](" ++ url.raw ++ ")"), FancyMarkdownMatched.yes))
    ∧ (url.queryPairs.lookup "repo" = Option.none
        ∨ url.queryPairs.lookup "revision" = Option.none →
        tryWriteMarkdownUrl url f = (f, FancyMarkdownMatched.no)) := by
  have hdisp := tryWrite_eq_dispatch url "treeherder.mozilla.org" f hs hh
  constructor
  · intro r v hr hv
    rw [hdisp, hsegs]
    show treeherderArm url ["jobs"] f = _
    unfold treeherderArm
    rw [treeherderParams_lookup, hr, hv]
    rfl
  · intro h
    rw [hdisp, hsegs]
    show treeherderArm url ["jobs"] f = _
    unfold treeherderArm
    rw [treeherderParams_lookup]
    rcases h with h | h <;> rw [h] <;>
      first
        | rfl
        | (cases url.queryPairs.lookup "repo" <;> rfl)

/-- Witness for C7 (amended) with an ASCII 20-hex-digit revision: truncated to
its first 12 characters. -/
theorem treeherder_amended_witness :
    tryWriteMarkdownUrl
        (Url.mk "https" (some "treeherder.mozilla.org") ["jobs"]
          [("repo", "autoland"), ("revision", "0123456789abcdef0123")]
          Option.none
          "https://treeherder.mozilla.org/jobs?repo=autoland&revision=0123456789abcdef0123")
        ""
      = ("[`autoland:0123456789ab`](https://treeherder.mozilla.org/jobs?repo=autoland&revision=0123456789abcdef0123)",
        FancyMarkdownMatched.yes) :=
  (treeherder_amended
      (Url.mk "https" (some "treeherder.mozilla.org") ["jobs"]
        [("repo", "autoland"), ("revision", "0123456789abcdef0123")]
        Option.none
        "https://treeherder.mozilla.org/jobs?repo=autoland&revision=0123456789abcdef0123")
      "" (Or.inr rfl) rfl rfl).1
    "autoland" "0123456789abcdef0123" rfl rfl

/-- C1 counterexample: with `prefix = "none"` configured for
`org/special-repo`, the two-segment repo-reference label is NOT empty — the
engine substitutes the repo name (source comment: "it doesn't make sense to
omit the name" for a page about the repo itself). -/
theorem ghPrefixNone_counterexample :
    ghTryWriteMarkdownUrl
        (Layered.mk
          (GithubConfig.mk [("org",
            OrgEntry.mk Option.none
              [("special-repo", RepoEntry.mk (some RepoPrefix.none))])])
          Option.none)
        (Url.mk "https" (some "github.com") ["org", "special-repo"] []
          Option.none "https://github.com/org/special-repo")
        ["org", "special-repo"] ""
      = ("[`special-repo`](https://github.com/org/special-repo)",
        some FancyMarkdownMatched.yes)
    ∧ ("[`special-repo`](https://github.com/org/special-repo)" : String)
      ≠ "[](https://github.com/org/special-repo)" := by
  refine ⟨by decide, by decide⟩

/-- C1 as amended: when the effective prefix override resolves to `none`, the
two-segment repo-reference label renders the repo name alone (as for
`repo-only`); the empty-prefix rendering applies to the deeper reference
forms instead — an issue/PR reference renders with an empty prefix, `[#n]`. -/
theorem ghPrefixNone_amended (config : Layered GithubConfig) (url : Url)
    (org repo kw n : String) (rest : List String) (f : String)
    (hpfx : ghResolvedPrefix config org repo = RepoPrefix.none) :
    ghTryWriteMarkdownUrl config url [org, repo] f
      = (f ++ ("[" ++ ("`" ++ repo ++ "`") ++ "](" ++ url.raw ++ ")"),
        some FancyMarkdownMatched.yes)
    ∧ (kw = "issues" ∨ kw = "pull" →
        ghTryWriteMarkdownUrl config url (org :: repo :: kw :: n :: rest) f
          = (f ++ ("[" ++ ("#" ++ n) ++ "](" ++ url.raw ++ ")"),
            some FancyMarkdownMatched.yes)) := by
  constructor
  · show ghRendered url org repo (ghResolvedPrefix config org repo) [] f = _
    rw [hpfx]
    rfl
  · intro hkw
    show ghRendered url org repo (ghResolvedPrefix config org repo)
      (kw :: n :: rest) f = _
    rw [hpfx]
    rcases hkw with h | h <;> subst h <;> rfl

/-- Witness for C1 (amended) at the spec's `org/special-repo` scenario. -/
theorem ghPrefixNone_amended_witness :
    ghTryWriteMarkdownUrl
        (Layered.mk
          (GithubConfig.mk [("org",
            OrgEntry.mk Option.none
              [("special-repo", RepoEntry.mk (some RepoPrefix.none))])])
          Option.none)
        (Url.mk "https" (some "github.com") ["org", "special-repo"] []
          Option.none "https://github.com/org/special-repo/issues/5")
        ["org", "special-repo"] ""
      = ("[`special-repo`](https://github.com/org/special-repo/issues/5)",
        some FancyMarkdownMatched.yes)
    ∧ ghTryWriteMarkdownUrl
        (Layered.mk
          (GithubConfig.mk [("org",
            OrgEntry.mk Option.none
              [("special-repo", RepoEntry.mk (some RepoPrefix.none))])])
          Option.none)
        (Url.mk "https" (some "github.com") ["org", "special-repo"] []
          Option.none "https://github.com/org/special-repo/issues/5")
        ["org", "special-repo", "issues", "5"] ""
      = ("[#5](https://github.com/org/special-repo/issues/5)",
        some FancyMarkdownMatched.yes) :=
  have h := ghPrefixNone_amended
    (Layered.mk
      (GithubConfig.mk [("org",
        OrgEntry.mk Option.none
          [("special-repo", RepoEntry.mk (some RepoPrefix.none))])])
      Option.none)
    (Url.mk "https" (some "github.com") ["org", "special-repo"] []
      Option.none "https://github.com/org/special-repo/issues/5")
    "org" "special-repo" "issues" "5" [] "" (by decide)
  ⟨h.1, h.2 (Or.inl rfl)⟩
